import Mathlib

/-!
Verification development for the partnersai repository.

The development shallowly embeds the two logic-bearing components:

* the WhatsApp chat-export parser (`src/lib/chatParser.ts`, present in the
  repository as `src/unnamed/part_002`): `matchHeader` is a hand-compiled,
  backtracking-faithful translation of the JavaScript regular expression
  `WHATSAPP_REGEX`, and `parseWhatsAppChat` mirrors the line loop;

* the entitlement engine: the `useSubscription` hook's `incrementUsage`
  (`src/src/hooks/useSubscription.ts`), the `admin-operations` edge function's
  `validate-promo` / `redeem-promo` actions (`src/unnamed/part_005`), the
  Razorpay order / verification / webhook functions
  (`src/supabase/functions/razorpay-*`), and the database shapes of
  `promo_codes` / `promo_redemptions` / `user_subscriptions`
  (`src/unnamed/part_003`, `src/unnamed/part_004`).

Database tables are modelled as lists of rows; the single-row reads, inserts,
updates and upserts performed by the handlers become explicit state-passing
functions on a `DB` record.  The opaque message ids (`crypto.randomUUID()`) are
omitted from `ParsedMessage`: no specified property mentions them.  The
HMAC-SHA256 primitive used by the payment functions is taken as an explicit
function parameter: the theorems about the payment handlers hold for every
keyed-hash function, in particular for HMAC-SHA256.
-/

namespace PartnersAI

/-! ## Character classes of the source regular expressions

`WHATSAPP_REGEX` (part_002, line 381):
`^\[?(\d{1,2}[\/\-\.]\d{1,2}[\/\-\.]\d{2,4}),?\s+(\d{1,2}:\d{2}(?::\d{2})?(?:\s*[AaPp][Mm])?)\]?\s*[-–—]?\s*(.+?):\s([\s\S]*)`
-/

/-- JavaScript `\s` (ASCII part; the rare Unicode space characters are not
modelled, no input in scope contains them). -/
def jsSpace (c : Char) : Bool :=
  c = ' ' || c = '\t' || c = '\n' || c = '\r' || c = '\x0b' || c = '\x0c'

/-- JavaScript `\d`. -/
def isDigitChar (c : Char) : Bool := '0' ≤ c && c ≤ '9'

/-- JavaScript `.` — any character except a line terminator. -/
def dotChar (c : Char) : Bool := c ≠ '\n' && c ≠ '\r'

/-- The date separator class `[\/\-\.]`. -/
def isSepChar (c : Char) : Bool := c = '/' || c = '-' || c = '.'

/-- The dash class `[-–—]` (hyphen, en dash, em dash). -/
def isDashChar (c : Char) : Bool := c = '-' || c = '–' || c = '—'

/-- `[AaPp]`. -/
def isAPChar (c : Char) : Bool := c = 'A' || c = 'a' || c = 'P' || c = 'p'

/-- `[Mm]`. -/
def isMChar (c : Char) : Bool := c = 'M' || c = 'm'

/-! ## Hand-compiled backtracking matcher for `WHATSAPP_REGEX`

Each bounded quantifier becomes explicitly ordered alternatives (greedy:
longest first), each `\s*` becomes a structural recursion that prefers
consuming, the lazy `(.+?)` prefers closing the group, and each optional
element tries the consuming alternative first.  The functions are written
from the tail of the pattern backwards so that every choice point can run
the entire remainder of the pattern. -/

/-- `(.+?):\s([\s\S]*)` — lazy sender capture.  `acc` holds the sender
characters consumed so far, reversed.  The group is closed at the first
position (with a nonempty capture) followed by `:` and one `\s`; the final
`([\s\S]*)` always matches, so closing is never reconsidered. -/
def matchSender (acc : List Char) : List Char → Option (List Char × List Char)
  | [] => none
  | c :: rest =>
    if c == ':' && !acc.isEmpty && (match rest with | w :: _ => jsSpace w | [] => false) then
      some (acc.reverse, rest.tail)
    else if dotChar c then
      matchSender (c :: acc) rest
    else none

/-- `\s*(.+?):\s([\s\S]*)` — greedy whitespace before the sender, with
backtracking (longest run first). -/
def matchWsSender : List Char → Option (List Char × List Char)
  | [] => matchSender [] []
  | c :: rest =>
    if jsSpace c then (matchWsSender rest).orElse (fun _ => matchSender [] (c :: rest))
    else matchSender [] (c :: rest)

/-- `[-–—]?\s*(.+?):\s([\s\S]*)` — optional dash, consuming first. -/
def matchDashWs (cs : List Char) : Option (List Char × List Char) :=
  match cs with
  | c :: rest =>
    if isDashChar c then (matchWsSender rest).orElse (fun _ => matchWsSender cs)
    else matchWsSender cs
  | [] => matchWsSender []

/-- `\s*[-–—]?\s*(.+?):\s([\s\S]*)` — greedy whitespace before the dash. -/
def matchWsDash : List Char → Option (List Char × List Char)
  | [] => matchDashWs []
  | c :: rest =>
    if jsSpace c then (matchWsDash rest).orElse (fun _ => matchDashWs (c :: rest))
    else matchDashWs (c :: rest)

/-- `\]?\s*[-–—]?\s*(.+?):\s([\s\S]*)` — the whole pattern tail after the
time capture, starting with the optional closing bracket. -/
def matchTail (cs : List Char) : Option (List Char × List Char) :=
  match cs with
  | c :: rest =>
    if c = ']' then (matchWsDash rest).orElse (fun _ => matchWsDash cs)
    else matchWsDash cs
  | [] => matchWsDash []

/-- `[AaPp][Mm]` at the head, then the pattern tail.  `tAcc` is the reversed
time capture accumulated so far (including any `\s*` already consumed inside
the optional am/pm group). -/
def matchAP (tAcc : List Char) (cs : List Char) :
    Option (List Char × List Char × List Char) :=
  match cs with
  | a :: m :: rest =>
    if isAPChar a && isMChar m then
      (matchTail rest).map (fun sb => ((m :: a :: tAcc).reverse, sb.1, sb.2))
    else none
  | _ => none

/-- `\s*[AaPp][Mm]` inside the optional am/pm group — greedy whitespace with
backtracking, each alternative continued by `[AaPp][Mm]` and the tail. -/
def matchAmPmWs (tAcc : List Char) : List Char → Option (List Char × List Char × List Char)
  | [] => matchAP tAcc []
  | c :: rest =>
    if jsSpace c then (matchAmPmWs (c :: tAcc) rest).orElse (fun _ => matchAP tAcc (c :: rest))
    else matchAP tAcc (c :: rest)

/-- `(?:\s*[AaPp][Mm])?` — the group is tried first (all internal
alternatives), and skipped when every one of them fails. -/
def matchAmPmGroup (tAcc : List Char) (cs : List Char) :
    Option (List Char × List Char × List Char) :=
  (matchAmPmWs tAcc cs).orElse
    (fun _ => (matchTail cs).map (fun sb => (tAcc.reverse, sb.1, sb.2)))

/-- `(?::\d{2})?` — optional seconds, consuming first. -/
def matchSeconds (tAcc : List Char) (cs : List Char) :
    Option (List Char × List Char × List Char) :=
  (match cs with
   | ':' :: d1 :: d2 :: rest =>
     if isDigitChar d1 && isDigitChar d2 then
       matchAmPmGroup (d2 :: d1 :: ':' :: tAcc) rest
     else none
   | _ => none).orElse (fun _ => matchAmPmGroup tAcc cs)

/-- `\d{2}` — exactly two minute digits. -/
def matchMinutes (tAcc : List Char) (cs : List Char) :
    Option (List Char × List Char × List Char) :=
  match cs with
  | d1 :: d2 :: rest =>
    if isDigitChar d1 && isDigitChar d2 then matchSeconds (d2 :: d1 :: tAcc) rest
    else none
  | _ => none

/-- `\d{1,2}:` opening the time capture — greedy hour (two digits first). -/
def matchTime (cs : List Char) : Option (List Char × List Char × List Char) :=
  (match cs with
   | d1 :: d2 :: ':' :: rest =>
     if isDigitChar d1 && isDigitChar d2 then matchMinutes [':', d2, d1] rest
     else none
   | _ => none).orElse
    (fun _ =>
      match cs with
      | d1 :: ':' :: rest =>
        if isDigitChar d1 then matchMinutes [':', d1] rest else none
      | _ => none)

/-- `\s*` before the time (the star part of `\s+`), greedy. -/
def matchWsStarTime : List Char → Option (List Char × List Char × List Char)
  | [] => matchTime []
  | c :: rest =>
    if jsSpace c then (matchWsStarTime rest).orElse (fun _ => matchTime (c :: rest))
    else matchTime (c :: rest)

/-- `\s+` between the date and the time: one mandatory `\s`, then `\s*`. -/
def matchWsPlusTime (cs : List Char) : Option (List Char × List Char × List Char) :=
  match cs with
  | c :: rest => if jsSpace c then matchWsStarTime rest else none
  | [] => none

/-- `,?` after the date capture, consuming first. -/
def matchComma (cs : List Char) : Option (List Char × List Char × List Char) :=
  match cs with
  | ',' :: rest => (matchWsPlusTime rest).orElse (fun _ => matchWsPlusTime cs)
  | _ => matchWsPlusTime cs

/-- `\d{2,4}` closing the date capture — greedy (four digits first). -/
def matchYear (dAcc : List Char) (cs : List Char) :
    Option (List Char × List Char × List Char × List Char) :=
  (match cs with
   | d1 :: d2 :: d3 :: d4 :: rest =>
     if isDigitChar d1 && isDigitChar d2 && isDigitChar d3 && isDigitChar d4 then
       (matchComma rest).map
         (fun (t : List Char × List Char × List Char) =>
            ((d4 :: d3 :: d2 :: d1 :: dAcc).reverse, t.1, t.2.1, t.2.2))
     else none
   | _ => none).orElse
    (fun _ =>
      (match cs with
       | d1 :: d2 :: d3 :: rest =>
         if isDigitChar d1 && isDigitChar d2 && isDigitChar d3 then
           (matchComma rest).map
             (fun (t : List Char × List Char × List Char) =>
                ((d3 :: d2 :: d1 :: dAcc).reverse, t.1, t.2.1, t.2.2))
         else none
       | _ => none).orElse
        (fun _ =>
          match cs with
          | d1 :: d2 :: rest =>
            if isDigitChar d1 && isDigitChar d2 then
              (matchComma rest).map
                (fun (t : List Char × List Char × List Char) =>
                    ((d2 :: d1 :: dAcc).reverse, t.1, t.2.1, t.2.2))
            else none
          | _ => none))

/-- The second `[\/\-\.]` of the date. -/
def matchSep2 (dAcc : List Char) (cs : List Char) :
    Option (List Char × List Char × List Char × List Char) :=
  match cs with
  | c :: rest => if isSepChar c then matchYear (c :: dAcc) rest else none
  | [] => none

/-- The second `\d{1,2}` of the date — greedy. -/
def matchDay2 (dAcc : List Char) (cs : List Char) :
    Option (List Char × List Char × List Char × List Char) :=
  (match cs with
   | d1 :: d2 :: rest =>
     if isDigitChar d1 && isDigitChar d2 then matchSep2 (d2 :: d1 :: dAcc) rest
     else none
   | _ => none).orElse
    (fun _ =>
      match cs with
      | d1 :: rest => if isDigitChar d1 then matchSep2 (d1 :: dAcc) rest else none
      | _ => none)

/-- The first `[\/\-\.]` of the date. -/
def matchSep1 (dAcc : List Char) (cs : List Char) :
    Option (List Char × List Char × List Char × List Char) :=
  match cs with
  | c :: rest => if isSepChar c then matchDay2 (c :: dAcc) rest else none
  | [] => none

/-- The opening `\d{1,2}` of the date — greedy. -/
def matchDate (cs : List Char) : Option (List Char × List Char × List Char × List Char) :=
  (match cs with
   | d1 :: d2 :: rest =>
     if isDigitChar d1 && isDigitChar d2 then matchSep1 (d2 :: d1 :: []) rest
     else none
   | _ => none).orElse
    (fun _ =>
      match cs with
      | d1 :: rest => if isDigitChar d1 then matchSep1 [d1] rest else none
      | _ => none)

/-- `line.match(WHATSAPP_REGEX)` restricted to its four capture groups
(date, time, sender, body); `none` when the line does not match. -/
def matchHeader (line : String) : Option (String × String × String × String) :=
  let cs := line.data
  let r := match cs with
    | '[' :: rest => (matchDate rest).orElse (fun _ => matchDate cs)
    | _ => matchDate cs
  r.map (fun x => (⟨x.1⟩, ⟨x.2.1⟩, ⟨x.2.2.1⟩, ⟨x.2.2.2⟩))

/-! ## `parseTimestamp` (part_002, lines 398–427) -/

/-- ASCII case-insensitive substring test: the JavaScript `/pat/i.test(s)`
for a plain-text pattern `pat`. -/
def prefixLower : List Char → List Char → Bool
  | [], _ => true
  | _ :: _, [] => false
  | a :: ps, b :: ss => a == b.toLower && prefixLower ps ss

/-- Substring scan used for the case-insensitive pattern tests (the pattern
is supplied already lower-cased). -/
def infixLower (p : List Char) : List Char → Bool
  | [] => prefixLower p []
  | s =>
    match s with
    | [] => prefixLower p []
    | _ :: t => prefixLower p s || infixLower p t

/-- `/pat/i.test(s)` for a plain lower-case pattern. -/
def containsCI (pat s : String) : Bool :=
  infixLower pat.data (s.data.map Char.toLower)

/-- `/pat$/i.test(s)` for a plain lower-case pattern. -/
def endsWithCI (pat s : String) : Bool :=
  prefixLower pat.data.reverse ((s.data.map Char.toLower).reverse)

/-- `String.prototype.trim()` (ASCII whitespace; the source strings in scope
contain no Unicode spaces). -/
def trimChars (s : List Char) : List Char :=
  ((s.dropWhile jsSpace).reverse.dropWhile jsSpace).reverse

/-- `line.trim()`. -/
def trimS (s : String) : String := ⟨trimChars s.data⟩

/-- `parseInt` on an all-digit token (the regex guarantees the captured date
and time components are nonempty digit runs). -/
def parseIntNat (s : String) : Nat :=
  s.data.foldl (fun n c => n * 10 + (c.toNat - 48)) 0

/-- `dateStr.split(/[\/\-\.]/)`. -/
def splitSeps (s : String) : List String :=
  (s.data.splitOnP (fun c => isSepChar c)).map (fun l => ⟨l⟩)

/-- The `\s*[AaPp][Mm]` test at the head of a character list: returns the
remainder after the match (greedy `\s*` with backtracking). -/
def apmAt : List Char → Option (List Char)
  | [] => none
  | c :: rest =>
    let here : Option (List Char) :=
      match c :: rest with
      | a :: m :: r2 => if isAPChar a && isMChar m then some r2 else none
      | _ => none
    if jsSpace c then (apmAt rest).orElse (fun _ => here) else here

/-- `timeStr.replace(/\s*[AaPp][Mm]/, '')` — removes the first match only. -/
def stripAmPm : List Char → List Char
  | [] => []
  | c :: rest =>
    match apmAt (c :: rest) with
    | some rem => rem
    | none => c :: stripAmPm rest

/-- The argument tuple of the `new Date(year, month, day, h, minutes)` call
that `parseTimestamp` ends with.  `month` is the JavaScript zero-based month
exactly as computed by the source; the calendar normalisation that
`new Date` would further apply is outside every specified property and is
not modelled. -/
structure JSDate where
  year : Int
  month : Int
  day : Int
  hour : Int
  minute : Int
deriving DecidableEq, Repr

/-- `parseTimestamp(dateStr, timeStr)` (part_002, lines 398–427). -/
def parseTimestamp (dateStr timeStr : String) : JSDate :=
  let parts := splitSeps dateStr
  let p0 : Int := (parseIntNat (parts.getD 0 "") : Int)
  let p1 : Int := (parseIntNat (parts.getD 1 "") : Int)
  let p2 : Int := (parseIntNat (parts.getD 2 "") : Int)
  -- if (parseInt(parts[0]) > 12) { day = p0; month = p1 - 1 }
  -- else if (parseInt(parts[1]) > 12) { month = p0 - 1; day = p1 }
  -- else { month = p0 - 1; day = p1 }
  let dm : Int × Int :=
    if p0 > 12 then (p0, p1 - 1)
    else if p1 > 12 then (p1, p0 - 1)
    else (p1, p0 - 1)
  let year : Int := if p2 < 100 then p2 + 2000 else p2
  let t := trimChars timeStr.data
  let isPM := containsCI "pm" ⟨t⟩
  let isAM := containsCI "am" ⟨t⟩
  let t2 := stripAmPm t
  let tparts := (t2.splitOn ':').map (fun l => parseIntNat ⟨l⟩)
  let hours : Int := (tparts.getD 0 0 : Nat)
  let minutes : Int := (tparts.getD 1 0 : Nat)
  let h1 : Int := if isPM && hours != 12 then hours + 12 else hours
  let h2 : Int := if isAM && h1 == 12 then 0 else h1
  { year := year, month := dm.2, day := dm.1, hour := h2, minute := minutes }

/-! ## System-message classification (part_002, lines 382–396, 429–431) -/

/-- `SYSTEM_PATTERNS.some(p => p.test(text))`: every pattern is a plain
case-insensitive substring except `/left$/i`, which is anchored at the end. -/
def isSystemMessage (text : String) : Bool :=
  containsCI "messages and calls are end-to-end encrypted" text ||
  containsCI "created group" text ||
  containsCI "added you" text ||
  containsCI "changed the subject" text ||
  containsCI "changed this group" text ||
  endsWithCI "left" text ||
  containsCI "removed " text ||
  containsCI "joined using" text ||
  containsCI "changed the group" text ||
  containsCI "your security code" text ||
  containsCI "disappeared message" text ||
  containsCI "message was deleted" text ||
  containsCI "you were added" text

/-! ## The parse loop (part_002, lines 433–482) -/

/-- One structured message.  The opaque `id` (`crypto.randomUUID()`) is
omitted: it is generated fresh on every call and no specified property
mentions it. -/
structure ParsedMessage where
  timestamp : JSDate
  sender : String
  text : String
  isSystem : Bool
deriving DecidableEq, Repr

structure ParseResult where
  messages : List ParsedMessage
  participants : List String
  preview : List String
deriving DecidableEq, Repr

/-- Loop state of `parseWhatsAppChat`: the output accumulators, the
in-flight message, and the preview line counter. -/
structure ParseState where
  messages : List ParsedMessage
  participants : List String
  preview : List String
  currentMsg : Option ParsedMessage
  lineCount : Nat
deriving DecidableEq, Repr

/-- `content.split('\n')` (split on the one-character separator; the empty
string yields a single empty line, as in JavaScript). -/
def splitLines (s : String) : List String :=
  (s.data.splitOn '\n').map (fun l => ⟨l⟩)

/-- `participantSet.add(sender)` — a JavaScript `Set` keeps first-seen
insertion order. -/
def pushParticipant (l : List String) (s : String) : List String :=
  if s ∈ l then l else l ++ [s]

/-- Finalising the in-flight message: add its sender to the participant set
unless it is a system message, push it onto the output list. -/
def commitCurrent (st : ParseState) : ParseState :=
  match st.currentMsg with
  | none => st
  | some m =>
    { st with
      participants := if m.isSystem then st.participants else pushParticipant st.participants m.sender
      messages := st.messages ++ [m]
      currentMsg := none }

/-- The preview bookkeeping at the top of the loop body:
`if (lineCount < 30) { preview.push(line); lineCount++; }`. -/
def previewStep (st : ParseState) (line : String) : ParseState :=
  if st.lineCount < 30 then
    { st with preview := st.preview ++ [line], lineCount := st.lineCount + 1 }
  else st

/-- One iteration of the `for (const line of lines)` loop. -/
def stepLine (st : ParseState) (line : String) : ParseState :=
  let st1 := previewStep st line
  match matchHeader line with
  | some (dateStr, timeStr, sender, text) =>
    let st2 := commitCurrent st1
    { st2 with
      currentMsg := some {
        timestamp := parseTimestamp dateStr timeStr
        sender := trimS sender
        text := trimS text
        isSystem := isSystemMessage (trimS text) } }
  | none =>
    match st1.currentMsg with
    | some m =>
      if trimS line = "" then st1
      else { st1 with currentMsg := some { m with text := m.text ++ "\n" ++ line } }
    | none => st1

def initState : ParseState := ⟨[], [], [], none, 0⟩

/-- `parseWhatsAppChat` (part_002, lines 433–482). -/
def parseWhatsAppChat (content : String) : ParseResult :=
  let st := commitCurrent ((splitLines content).foldl stepLine initState)
  { messages := st.messages.filter (fun m => !m.isSystem)
    participants := st.participants
    preview := st.preview }

/-! ## Entitlement engine: data model

Rows of `promo_codes`, `promo_redemptions` and `user_subscriptions`
(part_003, part_004).  Timestamps are modelled as integers, `NUMERIC` as
`ℚ`.  Columns no specified property reads (`created_at`, `updated_at`,
`created_by`, the Razorpay id columns) are omitted. -/

inductive Plan | free | pro
deriving DecidableEq, Repr

inductive SubStatus | active | cancelled | expired
deriving DecidableEq, Repr

inductive DiscountType | percentage | fixed
deriving DecidableEq, Repr

inductive PlanDuration | week | month | year
deriving DecidableEq, Repr

structure PromoCode where
  id : Nat
  code : String
  discount_type : DiscountType
  discount_value : ℚ
  max_uses : Option Nat
  times_used : Nat
  valid_from : Int
  valid_until : Option Int
  plan_duration : PlanDuration
  is_active : Bool
deriving DecidableEq, Repr

structure PromoRedemption where
  promo_code_id : Nat
  user_id : Nat
deriving DecidableEq, Repr

structure Subscription where
  user_id : Nat
  plan : Plan
  status : SubStatus
  plan_duration : PlanDuration
  current_period_end : Option Int
deriving DecidableEq, Repr

/-- The mutable backend state the handlers read and write. -/
structure DB where
  promos : List PromoCode
  redemptions : List PromoRedemption
  subs : List Subscription
deriving DecidableEq, Repr

/-- `getDurationEnd` (part_005, lines 9–18).  The source advances a calendar
date by 7 days / 1 month / 1 year; no specified property depends on the
exact length of a period, only on a period end being set, so the calendar
arithmetic is modelled by fixed positive offsets in seconds. -/
def getDurationEnd (now : Int) (d : PlanDuration) : Int :=
  now + (match d with
         | .week => 7 * 86400
         | .month => 30 * 86400
         | .year => 365 * 86400)

/-! ## `useSubscription` (src/src/hooks/useSubscription.ts) -/

def FREE_MSG_LIMIT : Nat := 10

/-- `canSendMessage` (useSubscription.ts, line 24). -/
def canSendMessage (plan : Plan) (messagesUsedToday : Nat) : Bool :=
  plan == .pro || decide (messagesUsedToday < FREE_MSG_LIMIT)

/-- `incrementUsage` (useSubscription.ts, lines 60–81), for a signed-in user
with the per-`(user, date)` upsert of the new count succeeding; the returned
pair is (accepted, the counter after the call). -/
def incrementUsage (plan : Plan) (messagesUsedToday : Nat) : Bool × Nat :=
  if plan == .pro then (true, messagesUsedToday)
  else if decide (messagesUsedToday ≥ FREE_MSG_LIMIT) then (false, messagesUsedToday)
  else (true, messagesUsedToday + 1)

/-! ## `validate-promo` (part_005, lines 215–267) -/

inductive ValidateResult
  | invalid (error : String)
  | valid (discount_type : DiscountType) (discount_value : ℚ)
      (plan_duration : PlanDuration) (promo_id : Nat)
deriving DecidableEq, Repr

/-- `code.toUpperCase()` (ASCII; promo codes in scope are ASCII). -/
def jsToUpper (s : String) : String := ⟨s.data.map Char.toUpper⟩

/-- The `promo_codes` lookup `.eq('code', code.toUpperCase()).eq('is_active', true)`. -/
def findPromoByCode (db : DB) (code : String) : Option PromoCode :=
  db.promos.find? (fun p => p.code == jsToUpper code && p.is_active)

/-- `promo.valid_until && new Date(promo.valid_until) < new Date()`. -/
def promoExpired (p : PromoCode) (now : Int) : Bool :=
  match p.valid_until with
  | some t => decide (t < now)
  | none => false

/-- `promo.max_uses && promo.times_used >= promo.max_uses` — a `NULL` or `0`
`max_uses` is falsy and means uncapped. -/
def promoCapped (p : PromoCode) : Bool :=
  match p.max_uses with
  | some m => m != 0 && decide (p.times_used ≥ m)
  | none => false

/-- The `promo_redemptions` lookup for `(promo.id, user.id)`. -/
def hasRedemption (db : DB) (promoId userId : Nat) : Bool :=
  db.redemptions.any (fun r => r.promo_code_id == promoId && r.user_id == userId)

/-- The `validate-promo` action handler (part_005, lines 215–267).  It only
reads the state: no `DB` is returned.  Note that `valid_from` is never
consulted. -/
def validatePromo (db : DB) (now : Int) (userId : Nat) (code : String) : ValidateResult :=
  match findPromoByCode db code with
  | none => .invalid "Invalid promo code"
  | some promo =>
    if promoExpired promo now then .invalid "Promo code expired"
    else if promoCapped promo then .invalid "Promo code fully redeemed"
    else if hasRedemption db promo.id userId then .invalid "Already used this promo code"
    else .valid promo.discount_type promo.discount_value promo.plan_duration promo.id

/-! ## `redeem-promo` (part_005, lines 270–315) -/

inductive RedeemResult
  | success (plan_duration : PlanDuration)
  | failure (error : String)
deriving DecidableEq, Repr

/-- `const baseAmountINR = 499` (part_005, line 282). -/
def baseAmountINR : ℚ := 499

/-- The free-redemption classification (part_005, lines 283–284). -/
def isFreePromo (p : PromoCode) : Bool :=
  (p.discount_type == .percentage && decide (p.discount_value ≥ 100)) ||
  (p.discount_type == .fixed && decide (p.discount_value ≥ baseAmountINR))

/-- The `promo_codes` lookup `.eq('id', promoId).eq('is_active', true)`. -/
def findPromoById (db : DB) (promoId : Nat) : Option PromoCode :=
  db.promos.find? (fun p => p.id == promoId && p.is_active)

/-- The `promo_redemptions` insert (part_005, lines 291–294).  The table has
`UNIQUE (promo_code_id, user_id)` (part_004, line 39): a duplicate insert
fails and adds no row.  The handler discards the result object of the
insert, so the failure is silently ignored and execution continues. -/
def insertRedemption (db : DB) (promoId userId : Nat) : DB :=
  if hasRedemption db promoId userId then db
  else { db with redemptions := db.redemptions ++ [⟨promoId, userId⟩] }

/-- The `times_used` update (part_005, lines 297–299): every row with the
given id is set to the value read before the insert, plus one. -/
def setTimesUsed (db : DB) (promoId : Nat) (v : Nat) : DB :=
  { db with
    promos := db.promos.map (fun q => if q.id == promoId then { q with times_used := v } else q) }

/-- `user_subscriptions` upsert with `onConflict: 'user_id'`: replace the
existing row for the user, or append a new one. -/
def upsertSub (db : DB) (s : Subscription) : DB :=
  if db.subs.any (fun t => t.user_id == s.user_id) then
    { db with subs := db.subs.map (fun t => if t.user_id == s.user_id then s else t) }
  else { db with subs := db.subs ++ [s] }

/-- The `redeem-promo` action handler (part_005, lines 270–315).  After the
id/is_active lookup it checks only `isFreePromo`: no re-check of expiry,
`max_uses`, or a prior redemption happens on this path. -/
def redeemPromo (db : DB) (now : Int) (userId promoId : Nat) : RedeemResult × DB :=
  match findPromoById db promoId with
  | none => (.failure "Invalid promo code", db)
  | some promo =>
    if !isFreePromo promo then
      (.failure "This promo code gives a discount. Please proceed with payment.", db)
    else
      let db1 := insertRedemption db promoId userId
      let db2 := setTimesUsed db1 promoId (promo.times_used + 1)
      let db3 := upsertSub db2
        { user_id := userId
          plan := .pro
          status := .active
          plan_duration := promo.plan_duration
          current_period_end := some (getDurationEnd now promo.plan_duration) }
      (.success promo.plan_duration, db3)

/-! ## `razorpay-create-order` (src/supabase/functions/razorpay-create-order) -/

inductive Currency | INR | USD
deriving DecidableEq, Repr

/-- `Math.round`, i.e. `⌊x + 1/2⌋` on the exact rational value. -/
def jsRound (q : ℚ) : Int := ⌊q + 1 / 2⌋

/-- The charge amount (in the currency's smallest unit) computed by the
order-creation function (razorpay-create-order/index.ts, lines 34–58):
₹499 (49900 paise) or $9 (900 cents), with the promo discount applied when
the promo id resolves to an active code. -/
def createOrderAmount (db : DB) (currency : Currency) (promoId : Option Nat) : ℚ :=
  let amount : ℚ := if currency == .INR then 49900 else 900
  match promoId with
  | none => amount
  | some pid =>
    match findPromoById db pid with
    | none => amount
    | some p =>
      if p.discount_type == .percentage then
        ((jsRound (amount * (1 - p.discount_value / 100)) : Int) : ℚ)
      else if p.discount_type == .fixed then
        max 100 (amount - p.discount_value * 100)
      else amount

/-! ## `razorpay-verify` and `razorpay-webhook`

The keyed hash (HMAC-SHA256 of the payload with the shared secret, hex
encoded) is an opaque primitive: it is passed in as a function
`hmac : secret → data → hex digest`, and the theorems hold for every such
function. -/

/-- `verifySignature` (razorpay-verify/index.ts, lines 9–18): the hex HMAC
of `` `${orderId}|${paymentId}` `` must equal the supplied signature. -/
def verifySignature (hmac : String → String → String)
    (orderId paymentId signature secret : String) : Bool :=
  hmac secret (orderId ++ "|" ++ paymentId) == signature

/-- The subscription upsert done by the payment-verification and webhook
paths: plan `pro`, status `active`, a period end one month out; a freshly
inserted row gets the column default `plan_duration = 'month'`, an existing
row keeps its stored duration (the upsert does not list that column). -/
def upsertVerifySub (db : DB) (userId : Nat) (periodEnd : Int) : DB :=
  match db.subs.find? (fun t => t.user_id == userId) with
  | some _ =>
    { db with
      subs := db.subs.map (fun t =>
        if t.user_id == userId then
          { t with plan := .pro, status := .active, current_period_end := some periodEnd }
        else t) }
  | none =>
    { db with
      subs := db.subs ++ [{ user_id := userId, plan := .pro, status := .active,
                            plan_duration := .month, current_period_end := some periodEnd }] }

inductive VerifyOutcome
  | ok
  | err (msg : String)
deriving DecidableEq, Repr

/-- The `razorpay-verify` request handler (index.ts, lines 39–66), for an
authenticated user: signature mismatch throws `Invalid payment signature`
and nothing is written; a valid signature upserts the pro subscription with
a one-month period. -/
def razorpayVerify (hmac : String → String → String) (secret : String) (db : DB)
    (userId : Nat) (now : Int) (orderId paymentId signature : String) :
    VerifyOutcome × DB :=
  if verifySignature hmac orderId paymentId signature secret then
    (.ok, upsertVerifySub db userId (now + 30 * 86400))
  else (.err "Invalid payment signature", db)

/-- `verifyWebhookSignature` (razorpay-webhook/index.ts, lines 9–17): the
hex HMAC of the full raw body must equal the `x-razorpay-signature` header. -/
def verifyWebhookSignature (hmac : String → String → String)
    (body signature secret : String) : Bool :=
  hmac secret body == signature

/-- The parsed fields of the webhook notification the handler reads:
`event` and `payload.payment.entity.notes.user_id`. -/
structure WebhookEvent where
  event : String
  userId : Option Nat
deriving DecidableEq, Repr

/-- The `razorpay-webhook` request handler (index.ts, lines 26–77).  JSON
parsing of the raw body is abstracted by `parseEvent`.  A bad signature is
answered with status 400 before the body is even parsed; `payment.captured`
with a user id upserts the subscription; everything else only logs. -/
def razorpayWebhook (hmac : String → String → String)
    (parseEvent : String → WebhookEvent) (secret : String) (db : DB) (now : Int)
    (rawBody signature : String) : Nat × DB :=
  if verifyWebhookSignature hmac rawBody signature secret then
    let ev := parseEvent rawBody
    if ev.event == "payment.captured" then
      match ev.userId with
      | some uid => (200, upsertVerifySub db uid (now + 30 * 86400))
      | none => (200, db)
    else (200, db)
  else (400, db)

/-! ## Helper lemmas -/

/-- `promoExpired` unfolded to a proposition. -/
theorem promoExpired_iff (p : PromoCode) (now : Int) :
    promoExpired p now = true ↔ ∃ t, p.valid_until = some t ∧ t < now := by
  cases h : p.valid_until <;> simp [promoExpired, h]

/-- `promoCapped` unfolded to a proposition. -/
theorem promoCapped_iff (p : PromoCode) :
    promoCapped p = true ↔ ∃ m, p.max_uses = some m ∧ m ≠ 0 ∧ m ≤ p.times_used := by
  cases h : p.max_uses with
  | none => simp [promoCapped, h]
  | some m =>
    simp only [promoCapped, h, Bool.and_eq_true, bne_iff_ne, ne_eq, decide_eq_true_eq,
      ge_iff_le, Option.some.injEq]
    constructor
    · rintro ⟨h1, h2⟩
      exact ⟨m, rfl, h1, h2⟩
    · rintro ⟨m2, rfl, h1, h2⟩
      exact ⟨h1, h2⟩

/-- `hasRedemption` unfolded to a proposition. -/
theorem hasRedemption_iff (db : DB) (promoId userId : Nat) :
    hasRedemption db promoId userId = true ↔
      ∃ r ∈ db.redemptions, r.promo_code_id = promoId ∧ r.user_id = userId := by
  simp [hasRedemption, List.any_eq_true]

/-- The subscription record handed to `upsertSub` ends up in the table. -/
theorem self_mem_upsertSub (db : DB) (s : Subscription) : s ∈ (upsertSub db s).subs := by
  unfold upsertSub
  split
  · next h =>
    obtain ⟨t, ht, htu⟩ := List.any_eq_true.mp h
    exact List.mem_map.mpr ⟨t, ht, by simp [htu]⟩
  · simp

/-! ## C4 -/

/-- C4: `incrementUsage` accepts a send exactly when the plan is pro or
fewer than `FREE_MSG_LIMIT` (10) messages were sent today — the same guard
as `canSendMessage` — and a free-plan user at the limit is rejected with the
counter left at 10, never incremented past it. -/
theorem incrementUsage_spec (plan : Plan) (n : Nat) :
    ((incrementUsage plan n).1 = true ↔ (plan = .pro ∨ n < FREE_MSG_LIMIT)) ∧
    ((incrementUsage plan n).1 = canSendMessage plan n) ∧
    (plan = .free → n = FREE_MSG_LIMIT → incrementUsage plan n = (false, FREE_MSG_LIMIT)) ∧
    (plan = .free → n ≤ FREE_MSG_LIMIT → (incrementUsage plan n).2 ≤ FREE_MSG_LIMIT) := by
  cases plan <;>
    refine ⟨?_, ?_, ?_, ?_⟩ <;>
    simp [incrementUsage, canSendMessage, FREE_MSG_LIMIT] <;>
    split_ifs <;>
    simp_all <;>
    omega

/-- C4 witness: a free-plan user at 10 messages is rejected without the
counter moving. -/
theorem incrementUsage_spec_witness :
    incrementUsage .free 10 = (false, 10) :=
  (incrementUsage_spec .free 10).2.2.1 rfl rfl

/-! ## C6 -/

/-- C6: `parseTimestamp` on a date token split into three numeric parts is
day-first when the first part exceeds 12, month-first when only the second
does, month-first by default, and promotes a year below 100 by adding
2000. -/
theorem parseTimestamp_disambiguation (dateStr timeStr s0 s1 s2 : String)
    (h : splitSeps dateStr = [s0, s1, s2]) :
    ((parseIntNat s0 : Int) > 12 →
       (parseTimestamp dateStr timeStr).day = (parseIntNat s0 : Int) ∧
       (parseTimestamp dateStr timeStr).month = (parseIntNat s1 : Int) - 1) ∧
    (¬ (parseIntNat s0 : Int) > 12 → (parseIntNat s1 : Int) > 12 →
       (parseTimestamp dateStr timeStr).month = (parseIntNat s0 : Int) - 1 ∧
       (parseTimestamp dateStr timeStr).day = (parseIntNat s1 : Int)) ∧
    (¬ (parseIntNat s0 : Int) > 12 → ¬ (parseIntNat s1 : Int) > 12 →
       (parseTimestamp dateStr timeStr).month = (parseIntNat s0 : Int) - 1 ∧
       (parseTimestamp dateStr timeStr).day = (parseIntNat s1 : Int)) ∧
    ((parseIntNat s2 : Int) < 100 →
       (parseTimestamp dateStr timeStr).year = (parseIntNat s2 : Int) + 2000) ∧
    (¬ (parseIntNat s2 : Int) < 100 →
       (parseTimestamp dateStr timeStr).year = (parseIntNat s2 : Int)) := by
  unfold parseTimestamp
  rw [h]
  simp only [List.getD_cons_zero, List.getD_cons_succ]
  refine ⟨?_, ?_, ?_, ?_, ?_⟩ <;> intros <;> split_ifs <;> simp_all

/-- C6 witness: `14/03/24` is read day-first (day 14, month index 2) with
the two-digit year promoted to 2024. -/
theorem parseTimestamp_disambiguation_witness :
    (parseTimestamp "14/03/24" "9:15").day = 14 ∧
    (parseTimestamp "14/03/24" "9:15").month = 2 ∧
    (parseTimestamp "14/03/24" "9:15").year = 2024 := by
  have h := parseTimestamp_disambiguation "14/03/24" "9:15" "14" "03" "24" rfl
  refine ⟨?_, ?_, ?_⟩
  · simpa using (h.1 (by decide)).1
  · simpa using (h.1 (by decide)).2
  · simpa using h.2.2.2.1 (by decide)

/-! ## C5 -/

/-- C5: a payment is trusted only when the keyed hash of
`orderId|paymentId` under the shared secret equals the supplied signature,
and the webhook only when the keyed hash of the full raw body matches; any
mismatch is rejected and the stored subscription state is left untouched.
The statement quantifies over the keyed-hash function, so it holds in
particular for HMAC-SHA256. -/
theorem payment_signature_gate
    (hmac : String → String → String) (parseEvent : String → WebhookEvent)
    (secret : String) (db : DB) (userId : Nat) (now : Int)
    (orderId paymentId signature rawBody wsig : String) :
    (signature ≠ hmac secret (orderId ++ "|" ++ paymentId) →
       razorpayVerify hmac secret db userId now orderId paymentId signature =
         (.err "Invalid payment signature", db)) ∧
    ((razorpayVerify hmac secret db userId now orderId paymentId signature).1 = .ok →
       hmac secret (orderId ++ "|" ++ paymentId) = signature) ∧
    (wsig ≠ hmac secret rawBody →
       razorpayWebhook hmac parseEvent secret db now rawBody wsig = (400, db)) ∧
    ((razorpayWebhook hmac parseEvent secret db now rawBody wsig).2 ≠ db →
       hmac secret rawBody = wsig) := by
  unfold razorpayVerify razorpayWebhook verifySignature verifyWebhookSignature
  by_cases h1 : hmac secret (orderId ++ "|" ++ paymentId) = signature <;>
    by_cases h2 : hmac secret rawBody = wsig <;>
      refine ⟨?_, ?_, ?_, ?_⟩ <;>
        simp_all

/-- C5 witness: a concrete keyed hash with a mismatched signature is
rejected on both the verification and the webhook path. -/
theorem payment_signature_gate_witness :
    razorpayVerify (fun s d => s ++ "#" ++ d) "secret" ⟨[], [], []⟩ 7 0 "o" "p" "bad" =
      (.err "Invalid payment signature", ⟨[], [], []⟩) ∧
    razorpayWebhook (fun s d => s ++ "#" ++ d) (fun _ => ⟨"payment.captured", some 7⟩)
        "secret" ⟨[], [], []⟩ 0 "body" "bad" = (400, ⟨[], [], []⟩) := by
  have h := payment_signature_gate (fun s d => s ++ "#" ++ d)
    (fun _ => ⟨"payment.captured", some 7⟩) "secret" ⟨[], [], []⟩ 7 0 "o" "p" "bad" "body" "bad"
  exact ⟨h.1 (by decide), h.2.2.1 (by decide)⟩

/-! ## C9 -/

/-- C9: direct (payment-free) redemption is granted exactly for promo codes
whose discount fully covers the base price — percentage at least 100 or a
fixed discount of at least ₹499; any other code is turned away from
`redeemPromo` with the proceed-with-payment error, while order creation
charges the discounted amount (a 50 % code halves the ₹499 charge to 24950
paise). -/
theorem promo_free_vs_discounted :
    (∀ p : PromoCode, isFreePromo p = true ↔
       ((p.discount_type = .percentage ∧ 100 ≤ p.discount_value) ∨
        (p.discount_type = .fixed ∧ baseAmountINR ≤ p.discount_value))) ∧
    (∀ (db : DB) (now : Int) (userId promoId : Nat) (promo : PromoCode),
       findPromoById db promoId = some promo → isFreePromo promo = false →
       redeemPromo db now userId promoId =
         (.failure "This promo code gives a discount. Please proceed with payment.", db)) ∧
    (∀ (db : DB) (promoId : Nat) (promo : PromoCode),
       findPromoById db promoId = some promo →
       promo.discount_type = .percentage → promo.discount_value = 50 →
       createOrderAmount db .INR (some promoId) = 24950 ∧ (24950 : ℚ) < 49900) := by
  refine ⟨?_, ?_, ?_⟩
  · intro p
    cases hd : p.discount_type <;> simp [isFreePromo, hd]
  · intro db now userId promoId promo hfind hfree
    simp [redeemPromo, hfind, hfree]
  · intro db promoId promo hfind hdt hdv
    simp only [createOrderAmount, hfind, hdt, hdv]
    norm_num [jsRound]

/-- A 50 %-off percentage promo code and a database holding it, used to
instantiate the order-discount statements. -/
def c9promo : PromoCode := ⟨2, "B", .percentage, 50, none, 0, 0, none, .month, true⟩

def c9db : DB := ⟨[c9promo], [], []⟩

/-- C9 witness: a 100 %-off code redeems directly, a 50 %-off code is
refused direct redemption and prices the order at 24950 paise. -/
theorem promo_free_vs_discounted_witness :
    isFreePromo ⟨1, "A", .percentage, 100, none, 0, 0, none, .month, true⟩ = true ∧
    redeemPromo c9db 0 7 2 =
      (.failure "This promo code gives a discount. Please proceed with payment.", c9db) ∧
    createOrderAmount c9db .INR (some 2) = 24950 := by
  refine ⟨?_, ?_, ?_⟩
  · exact (promo_free_vs_discounted.1 _).mpr (Or.inl ⟨rfl, by norm_num⟩)
  · exact promo_free_vs_discounted.2.1 c9db 0 7 2 c9promo rfl (by decide)
  · exact (promo_free_vs_discounted.2.2 c9db 2 c9promo rfl rfl rfl).1

/-! ## C3 -/

/-- C3 amended theorem: `validatePromo` reads an upper-cased active code, then
checks — in order, each failure with its own reason — expiry against
`valid_until` only, the `max_uses` cap, and a prior redemption by the same
user, and on success returns the discount terms without touching any state
(the function only reads the `DB`).  `valid_from` is never consulted: the
passing branch depends on nothing else. -/
theorem validatePromo_spec (db : DB) (now : Int) (userId : Nat) (code : String) :
    (findPromoByCode db code = none →
       validatePromo db now userId code = .invalid "Invalid promo code") ∧
    (∀ promo, findPromoByCode db code = some promo →
       ((promoExpired promo now = true ↔ ∃ t, promo.valid_until = some t ∧ t < now) ∧
        (promoCapped promo = true ↔
           ∃ m, promo.max_uses = some m ∧ m ≠ 0 ∧ m ≤ promo.times_used) ∧
        (hasRedemption db promo.id userId = true ↔
           ∃ r ∈ db.redemptions, r.promo_code_id = promo.id ∧ r.user_id = userId)) ∧
       (promoExpired promo now = true →
          validatePromo db now userId code = .invalid "Promo code expired") ∧
       (promoExpired promo now = false → promoCapped promo = true →
          validatePromo db now userId code = .invalid "Promo code fully redeemed") ∧
       (promoExpired promo now = false → promoCapped promo = false →
          hasRedemption db promo.id userId = true →
          validatePromo db now userId code = .invalid "Already used this promo code") ∧
       (promoExpired promo now = false → promoCapped promo = false →
          hasRedemption db promo.id userId = false →
          validatePromo db now userId code =
            .valid promo.discount_type promo.discount_value promo.plan_duration promo.id)) := by
  constructor
  · intro hfind
    simp [validatePromo, hfind]
  · intro promo hfind
    refine ⟨⟨promoExpired_iff promo now, promoCapped_iff promo, hasRedemption_iff db _ _⟩,
      ?_, ?_, ?_, ?_⟩ <;>
      intros <;>
      simp_all [validatePromo, hfind]

/-- An active promo code whose `valid_from` lies strictly in the future. -/
def c3promo : PromoCode :=
  { id := 1, code := "SAVE", discount_type := .percentage, discount_value := 100,
    max_uses := none, times_used := 0, valid_from := 1000, valid_until := none,
    plan_duration := .month, is_active := true }

def c3db : DB := ⟨[c3promo], [], []⟩

/-- C3 counterexample: at time 0 the code's `valid_from` (1000) is still in
the future, yet `validatePromo` reports it valid — the claimed
`[validFrom, validUntil]` window check does not exist on the `validFrom`
side. -/
theorem validatePromo_ignores_validFrom_cex :
    validatePromo c3db 0 7 "SAVE" = .valid .percentage 100 .month 1 ∧
    (0 : Int) < c3promo.valid_from := by
  constructor
  · decide
  · decide

/-- C3 witness: the success branch of `validatePromo_spec` instantiated on
`c3db`. -/
theorem validatePromo_spec_witness :
    validatePromo c3db 0 7 "SAVE" =
      .valid c3promo.discount_type c3promo.discount_value c3promo.plan_duration c3promo.id :=
  ((validatePromo_spec c3db 0 7 "SAVE").2 c3promo (by decide)).2.2.2.2 rfl rfl rfl

/-! ## C1 -/

/-- C1 amended theorem: the `max_uses` cap is enforced only by the pure
`validatePromo` check; `redeemPromo` itself, once the code is found active
and classified free, succeeds and rewrites `times_used` to the read value
plus one with no cap check, so the `timesUsed ≤ maxUses` invariant is not
preserved by redemption. -/
theorem redeemPromo_no_maxUses_check (db : DB) (now : Int) (userId promoId : Nat)
    (promo : PromoCode) (hfind : findPromoById db promoId = some promo)
    (hfree : isFreePromo promo = true) :
    ((redeemPromo db now userId promoId).1 = .success promo.plan_duration ∧
     (redeemPromo db now userId promoId).2.promos =
       db.promos.map (fun q =>
         if q.id == promoId then { q with times_used := promo.times_used + 1 } else q)) ∧
    (∀ code, findPromoByCode db code = some promo →
       promoExpired promo now = false → promoCapped promo = true →
       validatePromo db now userId code = .invalid "Promo code fully redeemed") := by
  constructor
  · constructor
    · simp only [redeemPromo, hfind, hfree, Bool.not_true, Bool.false_eq_true, if_false]
    · simp only [redeemPromo, hfind, hfree, Bool.not_true, Bool.false_eq_true, if_false,
        setTimesUsed, insertRedemption, upsertSub]
      split <;> split <;> rfl
  · intro code hcode hexp hcap
    simp [validatePromo, hcode, hexp, hcap]

/-- A free (100 %-off) promo code already at its usage cap:
`max_uses = some 1`, `times_used = 1`. -/
def c1promo : PromoCode :=
  { id := 1, code := "VIP", discount_type := .percentage, discount_value := 100,
    max_uses := some 1, times_used := 1, valid_from := 0, valid_until := none,
    plan_duration := .month, is_active := true }

def c1db : DB := ⟨[c1promo], [], []⟩

/-- C1 counterexample: redeeming the exhausted code still succeeds and
pushes `times_used` to 2, strictly above `max_uses = 1` — the increment is
not guarded by `times_used < max_uses` and the invariant breaks. -/
theorem redeemPromo_exceeds_maxUses_cex :
    (redeemPromo c1db 0 7 1).1 = .success .month ∧
    (redeemPromo c1db 0 7 1).2.promos.map (fun p => p.times_used) = [2] ∧
    c1promo.max_uses = some 1 ∧ ¬ (2 : Nat) ≤ 1 := by
  refine ⟨rfl, rfl, rfl, by omega⟩

/-- C1 witness: `redeemPromo_no_maxUses_check` instantiated on the exhausted
code `c1promo`. -/
theorem redeemPromo_no_maxUses_check_witness :
    (redeemPromo c1db 0 7 1).1 = .success c1promo.plan_duration ∧
    (redeemPromo c1db 0 7 1).2.promos =
      c1db.promos.map (fun q =>
        if q.id == 1 then { q with times_used := c1promo.times_used + 1 } else q) :=
  (redeemPromo_no_maxUses_check c1db 0 7 1 c1promo rfl (by decide)).1

/-! ## C2 -/

/-- C2 amended theorem: when the user already holds a `(promoCode, user)`
redemption record, the uniqueness constraint makes the insert add no row,
but the handler discards that failure: `redeemPromo` still reports success,
still increments `times_used`, and still upgrades the subscription to an
active pro plan.  Only the separate `validatePromo` read reports
"Already used this promo code". -/
theorem redeemPromo_ignores_duplicate (db : DB) (now : Int) (userId promoId : Nat)
    (promo : PromoCode) (hfind : findPromoById db promoId = some promo)
    (hfree : isFreePromo promo = true)
    (hdup : hasRedemption db promoId userId = true) :
    (redeemPromo db now userId promoId).1 = .success promo.plan_duration ∧
    (redeemPromo db now userId promoId).2.redemptions = db.redemptions ∧
    (redeemPromo db now userId promoId).2.promos =
      db.promos.map (fun q =>
        if q.id == promoId then { q with times_used := promo.times_used + 1 } else q) ∧
    ({ user_id := userId, plan := .pro, status := .active,
       plan_duration := promo.plan_duration,
       current_period_end := some (getDurationEnd now promo.plan_duration) } : Subscription)
      ∈ (redeemPromo db now userId promoId).2.subs ∧
    (∀ code, findPromoByCode db code = some promo →
       promoExpired promo now = false → promoCapped promo = false →
       validatePromo db now userId code = .invalid "Already used this promo code") := by
  have hred : hasRedemption db promoId userId = true → insertRedemption db promoId userId = db := by
    intro h
    simp [insertRedemption, h]
  refine ⟨?_, ?_, ?_, ?_, ?_⟩
  · simp only [redeemPromo, hfind, hfree, Bool.not_true, Bool.false_eq_true, if_false]
  · simp only [redeemPromo, hfind, hfree, Bool.not_true, Bool.false_eq_true, if_false,
      hred hdup, setTimesUsed, upsertSub]
    split <;> rfl
  · simp only [redeemPromo, hfind, hfree, Bool.not_true, Bool.false_eq_true, if_false,
      hred hdup, setTimesUsed, upsertSub]
    split <;> rfl
  · simp only [redeemPromo, hfind, hfree, Bool.not_true, Bool.false_eq_true, if_false]
    exact self_mem_upsertSub _ _
  · intro code hcode hexp hcap
    have hdup2 : hasRedemption db promo.id userId = true := by
      have : promo.id = promoId := by
        have := List.find?_some hfind
        simp only [Bool.and_eq_true, beq_iff_eq] at this
        exact this.1
      rw [this]
      exact hdup
    simp [validatePromo, hcode, hexp, hcap, hdup2]

/-- A free promo code and a database in which user 7 has already redeemed
it (`times_used` already reflects that first redemption). -/
def c2promo : PromoCode :=
  { id := 2, code := "FREE100", discount_type := .percentage, discount_value := 100,
    max_uses := none, times_used := 1, valid_from := 0, valid_until := none,
    plan_duration := .month, is_active := true }

def c2db : DB := ⟨[c2promo], [⟨2, 7⟩], []⟩

/-- C2 counterexample: user 7 redeems the same code a second time; the claim
says the failed uniqueness insert aborts everything with "already redeemed",
but the call reports success, bumps `times_used` to 2 and upgrades the
subscription — only the redemption row itself is deduplicated. -/
theorem redeemPromo_duplicate_cex :
    (redeemPromo c2db 0 7 2).1 = .success .month ∧
    (redeemPromo c2db 0 7 2).2.promos.map (fun p => p.times_used) = [2] ∧
    (redeemPromo c2db 0 7 2).2.subs.map (fun s => (s.user_id, s.plan, s.status)) =
      [(7, Plan.pro, SubStatus.active)] ∧
    (redeemPromo c2db 0 7 2).2.redemptions = [⟨2, 7⟩] := by
  refine ⟨rfl, rfl, rfl, rfl⟩

/-- C2 witness: `redeemPromo_ignores_duplicate` instantiated on `c2db`. -/
theorem redeemPromo_ignores_duplicate_witness :
    (redeemPromo c2db 0 7 2).1 = .success c2promo.plan_duration ∧
    (redeemPromo c2db 0 7 2).2.redemptions = c2db.redemptions :=
  let h := redeemPromo_ignores_duplicate c2db 0 7 2 c2promo rfl (by decide) rfl
  ⟨h.1, h.2.1⟩

/-! ## Parser lemmas shared by the parse-loop claims -/

/-- `commitCurrent` never touches the preview accumulator or the counter. -/
theorem commitCurrent_preview (st : ParseState) :
    (commitCurrent st).preview = st.preview ∧ (commitCurrent st).lineCount = st.lineCount := by
  unfold commitCurrent
  cases st.currentMsg <;> exact ⟨rfl, rfl⟩

/-- A loop iteration changes the preview and the counter exactly as the
preview bookkeeping at its top does. -/
theorem stepLine_preview (st : ParseState) (line : String) :
    (stepLine st line).preview = (previewStep st line).preview ∧
    (stepLine st line).lineCount = (previewStep st line).lineCount := by
  unfold stepLine
  cases matchHeader line with
  | some v =>
    obtain ⟨d, t, s, b⟩ := v
    simp only
    exact ⟨(commitCurrent_preview _).1, (commitCurrent_preview _).2⟩
  | none =>
    simp only
    cases (previewStep st line).currentMsg with
    | none => exact ⟨rfl, rfl⟩
    | some m => refine ⟨?_, ?_⟩ <;> by_cases h : trimS line = "" <;> simp [h]

/-- Folding the loop appends exactly the lines that still fit under the
30-line preview budget. -/
theorem foldl_stepLine_preview (lines : List String) (st : ParseState) :
    (lines.foldl stepLine st).preview = st.preview ++ lines.take (30 - st.lineCount) := by
  induction lines generalizing st with
  | nil => simp
  | cons l ls ih =>
    rw [List.foldl_cons, ih, (stepLine_preview st l).1, (stepLine_preview st l).2]
    unfold previewStep
    split
    · next h =>
      have h30 : 30 - st.lineCount = (30 - (st.lineCount + 1)) + 1 := by omega
      simp only [h30, List.take_succ_cons, List.append_assoc, List.singleton_append]
    · next h =>
      have h30 : 30 - st.lineCount = 0 := by omega
      simp [h30]

/-! ## C10 -/

/-- C10 counterexample: the preview of the empty input is not empty —
JavaScript's `"".split('\n')` yields one empty line, which is pushed onto
the preview. -/
theorem parseWhatsAppChat_empty_cex : (parseWhatsAppChat "").preview ≠ [] := by
  decide

/-- C10 amended theorem: the empty input parses to no messages and no
participants, and a preview holding exactly one empty line. -/
theorem parseWhatsAppChat_empty :
    parseWhatsAppChat "" = { messages := [], participants := [], preview := [""] } := by
  decide

/-! ## C7 -/

/-- The two-message multi-line scenario input. -/
def c7input : String :=
  "12/03/24, 9:15 am - Alice: hi\nthere\n12/03/24, 9:16 am - Bob: hello"

/-- C7: the scenario input parses to exactly the two messages
Alice/"hi\nthere"/09:15 and Bob/"hello"/09:16 with participants
["Alice", "Bob"]; and in general a line that fails the header pattern while
a message is in flight and is non-blank is appended to the in-flight body
with a newline separator. -/
theorem parseWhatsAppChat_scenario_and_continuation :
    ((parseWhatsAppChat c7input).messages.map
        (fun m => (m.sender, m.text, m.timestamp.hour, m.timestamp.minute)) =
      [("Alice", "hi\nthere", 9, 15), ("Bob", "hello", 9, 16)] ∧
     (parseWhatsAppChat c7input).participants = ["Alice", "Bob"]) ∧
    (∀ (st : ParseState) (line : String) (m : ParsedMessage),
       matchHeader line = none → st.currentMsg = some m → trimS line ≠ "" →
       stepLine st line =
         { previewStep st line with
           currentMsg := some { m with text := m.text ++ "\n" ++ line } }) := by
  constructor
  · exact ⟨by decide, by decide⟩
  · intro st line m hmatch hcur htrim
    have hcur1 : (previewStep st line).currentMsg = some m := by
      unfold previewStep
      split <;> exact hcur
    unfold stepLine
    rw [hmatch]
    simp only [hcur1]
    rw [if_neg htrim]

/-- C7 witness: the continuation step applied to a concrete in-flight
message and the concrete non-header line "there". -/
theorem parseWhatsAppChat_continuation_witness :
    stepLine ⟨[], [], [], some ⟨⟨2024, 11, 3, 9, 15⟩, "Alice", "hi", false⟩, 1⟩ "there" =
      { previewStep ⟨[], [], [], some ⟨⟨2024, 11, 3, 9, 15⟩, "Alice", "hi", false⟩, 1⟩ "there" with
        currentMsg := some ⟨⟨2024, 11, 3, 9, 15⟩, "Alice", "hi" ++ "\n" ++ "there", false⟩ } :=
  parseWhatsAppChat_scenario_and_continuation.2
    ⟨[], [], [], some ⟨⟨2024, 11, 3, 9, 15⟩, "Alice", "hi", false⟩, 1⟩
    "there" ⟨⟨2024, 11, 3, 9, 15⟩, "Alice", "hi", false⟩ (by decide) rfl (by decide)

/-! ## C8 -/

/-- The scenario input: a single encryption-notice system message. -/
def c8input : String :=
  "12/03/24, 9:00 am - Alice: Messages and calls are end-to-end encrypted"

/-- C8: a message whose header-line body matches a system pattern (here the
end-to-end-encryption notice) is flagged as system and excluded from both
the returned messages and the participant set, while its raw line stays in
the preview; in general no returned message is a system message, and the
preview is always exactly the first 30 raw lines of the input, system lines
included. -/
theorem parseWhatsAppChat_system_handling :
    ((parseWhatsAppChat c8input).messages = [] ∧
     (parseWhatsAppChat c8input).participants = [] ∧
     (parseWhatsAppChat c8input).preview = [c8input] ∧
     isSystemMessage "Messages and calls are end-to-end encrypted" = true) ∧
    (∀ (content : String) (m : ParsedMessage),
       m ∈ (parseWhatsAppChat content).messages → m.isSystem = false) ∧
    (∀ content : String,
       (parseWhatsAppChat content).preview = (splitLines content).take 30) := by
  refine ⟨⟨by decide, by decide, by decide, by decide⟩, ?_, ?_⟩
  · intro content m hm
    unfold parseWhatsAppChat at hm
    simp only [List.mem_filter, Bool.not_eq_true'] at hm
    exact hm.2
  · intro content
    unfold parseWhatsAppChat
    simp only [(commitCurrent_preview _).1, foldl_stepLine_preview, initState]
    simp

/-- C8 witness: the no-system-messages-in-output statement instantiated on
a concrete parse whose single message is an ordinary one. -/
theorem parseWhatsAppChat_system_handling_witness :
    (⟨⟨2024, 11, 3, 9, 15⟩, "Alice", "ok", false⟩ : ParsedMessage).isSystem = false :=
  parseWhatsAppChat_system_handling.2.1 "12/03/24, 9:15 am - Alice: ok"
    ⟨⟨2024, 11, 3, 9, 15⟩, "Alice", "ok", false⟩ (by decide)

end PartnersAI
